import Mathlib

/-!
Shallow embedding of the client-side data/view synchronization logic of the
TH Consumption Record application (`src/App.tsx`, `src/supabase.ts`).

The component state of `App` is modelled as an explicit `AppState` record.
Each event handler (`fetchData`, `handleAddTransaction`,
`handleDeleteTransaction`, `handleSearch`) becomes a pure function from the
current state plus the outcomes of its remote calls to the next state,
paired with the list of remote requests it issues.  The derived
sort/paginate/export pipeline (`sortedData`, `paginatedData`, `totalPages`,
`requestSort`, `exportToCSV`) is translated directly.

JavaScript numbers are modelled as `Option Rat`: `some q` is a finite value,
`none` stands for the non-finite values (`NaN`, `Infinity`) observable here.
`Array.prototype.sort` (a stable sort whose output on an inconsistent
comparator is engine-defined) is modelled as the stable insertion sort.
-/

namespace ConsumptionApp

/-- JavaScript number restricted to the cases observable in this app:
`some q` is a finite value, `none` stands for the non-finite results
(`NaN`, `Infinity`) that `parseFloat` can produce. -/
abbrev JsNum := Option Rat

/-- Row of the `transactions` collection (interface `Transaction`,
`src/supabase.ts`). -/
structure Transaction where
  id : Option Nat := none
  date : String
  category : String
  item : String
  vendor : String
  amount : JsNum
  from_account : String
  paid_by : String
  created_at : Option String := none
  deriving DecidableEq, Repr

/-- Row of a lookup collection (interface `LookupItem`, `src/supabase.ts`). -/
structure LookupItem where
  id : Option Nat := none
  name : String
  deriving DecidableEq, Repr

/-- Sort direction of the grid (the asc/desc union type in `App.tsx`). -/
inductive SortDirection
  | asc
  | desc
  deriving DecidableEq, Repr

/-- Sortable column key (`keyof Transaction` in `App.tsx`). -/
inductive TxKey
  | id
  | date
  | category
  | item
  | vendor
  | amount
  | from_account
  | paid_by
  | created_at
  deriving DecidableEq, Repr

/-- The `SortConfig` type of `App.tsx`. -/
structure SortConfig where
  key : TxKey
  direction : SortDirection
  deriving DecidableEq, Repr

/-- The active tab (the input/search union type in `App.tsx`). -/
inductive Tab
  | input
  | search
  deriving DecidableEq, Repr

/-- The `useState` pieces of the `App` component, gathered in one record. -/
structure AppState where
  activeTab : Tab
  date : String
  category : String
  item : String
  vendor : String
  amount : String
  fromAccount : String
  paidBy : String
  isSubmitting : Bool
  fromDate : String
  toDate : String
  searchCategory : String
  searchResults : Option (List Transaction)
  currentPage : Nat
  sortConfig : SortConfig
  categories : List LookupItem
  accounts : List LookupItem
  payers : List LookupItem
  allTransactions : List Transaction
  isLoading : Bool
  error : Option String
  deriving DecidableEq, Repr

/-- The two connection parameters read from `import.meta.env`
(`VITE_SUPABASE_URL`, `VITE_SUPABASE_ANON_KEY`); `none` models an unset
variable. -/
structure EnvConfig where
  url : Option String
  anonKey : Option String
  deriving DecidableEq, Repr

/-- Whether the character list `pat` is an initial segment of `s`. -/
def leadsWith : List Char → List Char → Bool
  | [], _ => true
  | _ :: _, [] => false
  | p :: ps, c :: cs => p == c && leadsWith ps cs

/-- Whether the character list `pat` occurs contiguously in the list. -/
def hasSub (pat : List Char) : List Char → Bool
  | [] => leadsWith pat []
  | c :: cs => leadsWith pat (c :: cs) || hasSub pat cs

/-- JavaScript `String.prototype.includes`. -/
def strIncludes (s pat : String) : Bool :=
  hasSub pat.toList s.toList

/-- The configuration guard of `fetchData` (`App.tsx` line 79):
a parameter is bad when it is falsy or contains "placeholder".  An unset
variable is falsy, as is
the empty string. -/
def configMissing (cfg : EnvConfig) : Bool :=
  cfg.url.getD "" == "" || cfg.anonKey.getD "" == "" ||
    strIncludes (cfg.url.getD "") "placeholder" ||
    strIncludes (cfg.anonKey.getD "") "placeholder"

/-- The object literal inserted into `transactions` by `handleAddTransaction`
(no `id`, no `created_at`). -/
structure NewTransaction where
  date : String
  category : String
  item : String
  vendor : String
  amount : JsNum
  from_account : String
  paid_by : String
  deriving DecidableEq, Repr

/-- The filter/order clauses `handleSearch` attaches to its select. -/
structure SearchQuery where
  gteDate : Option String
  lteDate : Option String
  eqCategory : Option String
  descendingByDate : Bool
  deriving DecidableEq, Repr

/-- One remote request issued against the Supabase client. -/
inductive RemoteCall
  | selectOrdered (table : String)
  | insertTransactionRow (row : NewTransaction)
  | insertLookupRow (table : String) (name : String)
  | deleteById (table : String) (key : Nat)
  | searchSelect (q : SearchQuery)
  deriving DecidableEq, Repr

/-- Outcomes of the four parallel selects awaited by `fetchData`
(`Promise.all` over categories, accounts, payers, transactions). -/
structure LoadResults where
  categoriesRes : Except String (List LookupItem)
  accountsRes : Except String (List LookupItem)
  payersRes : Except String (List LookupItem)
  transactionsRes : Except String (List Transaction)
  deriving Repr

/-- Error message of one settled result, if any. -/
def errMsg {α : Type} : Except String α → List String
  | .error e => [e]
  | .ok _ => []

/-- The error messages collected by `results.filter(r => r.error)` in
`fetchData`, in result order. -/
def loadErrors (r : LoadResults) : List String :=
  errMsg r.categoriesRes ++ errMsg r.accountsRes ++ errMsg r.payersRes ++
    errMsg r.transactionsRes

/-- Error banner text for a missing or placeholder configuration
(`App.tsx` line 80). -/
def configErrorMsg : String :=
  "Supabase configuration is incomplete. Please ensure VITE_SUPABASE_URL and VITE_SUPABASE_ANON_KEY are correctly set in the Secrets panel."

/-- Error banner text substituted when the failure message contains
"Failed to fetch" (`App.tsx` line 111). -/
def networkErrorMsg : String :=
  "Network Error: Failed to reach Supabase. This usually means the URL is incorrect, the project is paused, or there is a local network/CORS issue. Please double-check your VITE_SUPABASE_URL in Secrets."

/-- The four selects issued by a `load()` that passes the configuration
guard. -/
def loadCallList : List RemoteCall :=
  [.selectOrdered "categories", .selectOrdered "accounts",
    .selectOrdered "payers", .selectOrdered "transactions"]

/-- `fetchData` (`App.tsx` lines 75-118): the configuration guard, then the
four selects; on any reported error no collection is touched and the error
banner is set (with the network-failure rewrite), otherwise all four
collections are replaced wholesale. -/
def fetchData (cfg : EnvConfig) (r : LoadResults) (st : AppState) :
    AppState × List RemoteCall :=
  if configMissing cfg then
    ({ st with error := some configErrorMsg, isLoading := false }, [])
  else
    let errs := loadErrors r
    if errs.isEmpty then
      ({ st with
          error := none,
          isLoading := false,
          categories := (match r.categoriesRes with
            | .ok l => l
            | .error _ => st.categories),
          accounts := (match r.accountsRes with
            | .ok l => l
            | .error _ => st.accounts),
          payers := (match r.payersRes with
            | .ok l => l
            | .error _ => st.payers),
          allTransactions := (match r.transactionsRes with
            | .ok l => l
            | .error _ => st.allTransactions) },
        loadCallList)
    else
      let msg := "Supabase Error: " ++ String.intercalate ", " errs
      let msg2 := if strIncludes msg "Failed to fetch" then networkErrorMsg else msg
      ({ st with error := some msg2, isLoading := false }, loadCallList)

/-- Value of a run of decimal digit characters. -/
def digitsVal (cs : List Char) : Nat :=
  cs.foldl (fun a c => a * 10 + (c.toNat - 48)) 0

/-- Exponent suffix accepted by `parseFloat` after `e`/`E`: an optional sign
and at least one digit; an invalid suffix is ignored (exponent 0). -/
def expDigits (r : List Char) : Int :=
  match r with
  | '-' :: ds =>
    if (ds.takeWhile Char.isDigit).isEmpty then 0
    else -(digitsVal (ds.takeWhile Char.isDigit) : Int)
  | '+' :: ds =>
    if (ds.takeWhile Char.isDigit).isEmpty then 0
    else (digitsVal (ds.takeWhile Char.isDigit) : Int)
  | ds =>
    if (ds.takeWhile Char.isDigit).isEmpty then 0
    else (digitsVal (ds.takeWhile Char.isDigit) : Int)

/-- JavaScript `parseFloat`: the longest numeric prefix after optional
leading whitespace and sign; a string with no numeric prefix gives `NaN` and
an `Infinity` prefix gives an infinite value, both non-finite and hence
`none` here. -/
def jsParseFloat (s : String) : JsNum :=
  let cs := s.toList.dropWhile fun c =>
    c == ' ' || c == '\t' || c == '\n' || c == '\r'
  let sgn : Int := match cs with
    | '-' :: _ => -1
    | _ => 1
  let cs1 : List Char := match cs with
    | '-' :: rest => rest
    | '+' :: rest => rest
    | _ => cs
  if leadsWith "Infinity".toList cs1 then none
  else
    let intPart := cs1.takeWhile Char.isDigit
    let rest1 := cs1.dropWhile Char.isDigit
    let fracPart : List Char := match rest1 with
      | '.' :: r => r.takeWhile Char.isDigit
      | _ => []
    let rest2 : List Char := match rest1 with
      | '.' :: r => r.dropWhile Char.isDigit
      | _ => rest1
    if intPart.isEmpty && fracPart.isEmpty then none
    else
      let mant : Rat :=
        (digitsVal intPart : Rat) +
          (digitsVal fracPart : Rat) / ((10 : Rat) ^ fracPart.length)
      let expo : Int := match rest2 with
        | 'e' :: r => expDigits r
        | 'E' :: r => expDigits r
        | _ => 0
      some ((sgn : Rat) * mant * (10 : Rat) ^ expo)

/-- The `newTransaction` object literal built by `handleAddTransaction`
(`App.tsx` lines 130-138): form fields as-is, `amount: parseFloat(amount)`. -/
def newTransactionOf (st : AppState) : NewTransaction :=
  { date := st.date, category := st.category, item := st.item,
    vendor := st.vendor, amount := jsParseFloat st.amount,
    from_account := st.fromAccount, paid_by := st.paidBy }

/-- The conditional lookup-table inserts of `handleAddTransaction`
(`App.tsx` lines 148-156): a row is inserted when the submitted value is
truthy and no lookup row of that name exists yet. -/
def lookupInsertCalls (st : AppState) : List RemoteCall :=
  (if st.category != "" && st.categories.all (fun c => c.name != st.category)
    then [RemoteCall.insertLookupRow "categories" st.category] else []) ++
  (if st.fromAccount != "" && st.accounts.all (fun a => a.name != st.fromAccount)
    then [RemoteCall.insertLookupRow "accounts" st.fromAccount] else []) ++
  (if st.paidBy != "" && st.payers.all (fun p => p.name != st.paidBy)
    then [RemoteCall.insertLookupRow "payers" st.paidBy] else [])

/-- `handleAddTransaction` (`App.tsx` lines 124-176).  The only local guard
is `if (!amount || isSubmitting) return;`.  Otherwise the transaction row is
inserted; on insert failure only an alert is shown; on success the lookup
inserts fire, `fetchData()` refreshes the collections (outcome `loadRes`),
the form fields are reset with the date set to `today` (`getLocalDate()`),
and the page is reset to 1. -/
def handleAddTransaction (cfg : EnvConfig) (today : String) (st : AppState)
    (insertRes : Except String Unit) (loadRes : LoadResults) :
    AppState × List RemoteCall :=
  if st.amount == "" || st.isSubmitting then (st, [])
  else
    let row := newTransactionOf st
    match insertRes with
    | .error _ => ({ st with isSubmitting := false }, [.insertTransactionRow row])
    | .ok _ =>
      let lkCalls := lookupInsertCalls st
      let res2 := fetchData cfg loadRes st
      ({ res2.1 with
          amount := "", category := "", item := "", vendor := "",
          fromAccount := "", paidBy := "", date := today, currentPage := 1,
          isSubmitting := false },
        RemoteCall.insertTransactionRow row :: (lkCalls ++ res2.2))

/-- `handleDeleteTransaction` (`App.tsx` lines 178-200): an `undefined` id
returns at once; after the `window.confirm` gate (`confirmed`), the delete
keyed by `id` is issued; on success both in-memory collections are filtered
by `t.id !== id`; on failure only an alert is shown. -/
def handleDeleteTransaction (st : AppState) (key : Option Nat)
    (confirmed : Bool) (delRes : Except String Unit) :
    AppState × List RemoteCall :=
  match key with
  | none => (st, [])
  | some i =>
    if confirmed then
      match delRes with
      | .ok _ =>
        ({ st with
            allTransactions := st.allTransactions.filter fun t => t.id != some i,
            searchResults := (match st.searchResults with
              | some l => some (l.filter fun t => t.id != some i)
              | none => none) },
          [.deleteById "transactions" i])
      | .error _ => (st, [.deleteById "transactions" i])
    else (st, [])

/-- The query built by `handleSearch` (`App.tsx` lines 206-212): `gte` on
`date` when `fromDate` is truthy, `lte` on `date` when `toDate` is truthy,
`eq` on `category` when `searchCategory` is truthy, always ordered by `date`
descending. -/
def buildSearchQuery (fromDate toDate searchCategory : String) : SearchQuery :=
  { gteDate := if fromDate != "" then some fromDate else none,
    lteDate := if toDate != "" then some toDate else none,
    eqCategory := if searchCategory != "" then some searchCategory else none,
    descendingByDate := true }

/-- `handleSearch` (`App.tsx` lines 202-223): issues the built query; on
success the rows replace the search-result state and the page resets to 1;
on failure only an alert is shown; `isLoading` ends up false either way. -/
def handleSearch (st : AppState) (res : Except String (List Transaction)) :
    AppState × List RemoteCall :=
  let q := buildSearchQuery st.fromDate st.toDate st.searchCategory
  match res with
  | .ok data =>
    ({ st with searchResults := some data, currentPage := 1, isLoading := false },
      [.searchSelect q])
  | .error _ => ({ st with isLoading := false }, [.searchSelect q])

/-- Modelled from the spec: the select contract of the Remote Store Client
(section 6), which is an external collaborator, not code of this repository.
A select keeps the rows meeting every attached filter (`gte`/`lte` on `date`
inclusive, equality on `category`) and returns them ordered by `date`
descending when the order clause asks for it. -/
def runSearchQuery (store : List Transaction) (q : SearchQuery) :
    List Transaction :=
  let rows := store.filter fun t =>
    (match q.gteDate with | none => true | some d => decide (d ≤ t.date)) &&
    (match q.lteDate with | none => true | some d => decide (t.date ≤ d)) &&
    (match q.eqCategory with | none => true | some c => t.category == c)
  if q.descendingByDate then
    rows.insertionSort fun a b => b.date ≤ a.date
  else rows

/-- Value of one column of a row, as the untyped access `a[sortConfig.key]`
sees it: a number, a string, `NaN`, or `undefined`. -/
inductive FieldValue
  | num (q : Rat)
  | str (s : String)
  | nan
  | undef
  deriving DecidableEq, Repr

/-- Column access `t[key]`. -/
def getField (t : Transaction) : TxKey → FieldValue
  | .id => (match t.id with | some n => .num n | none => .undef)
  | .date => .str t.date
  | .category => .str t.category
  | .item => .str t.item
  | .vendor => .str t.vendor
  | .amount => (match t.amount with | some q => .num q | none => .nan)
  | .from_account => .str t.from_account
  | .paid_by => .str t.paid_by
  | .created_at => (match t.created_at with | some s => .str s | none => .undef)

/-- JavaScript `<` on two column values; mixed-type or non-finite operands
compare false, as `NaN` does. -/
def fvLt : FieldValue → FieldValue → Bool
  | .num a, .num b => decide (a < b)
  | .str a, .str b => decide (a < b)
  | _, _ => false

/-- The sort comparator of `sortedData` (`App.tsx` lines 257-266): an
`undefined` value on either side compares equal; otherwise `<`/`>` on the
column values, with the sign flipped for descending order. -/
def jsCompare (cfg : SortConfig) (a b : Transaction) : Int :=
  let av := getField a cfg.key
  let bv := getField b cfg.key
  if av == .undef || bv == .undef then 0
  else if fvLt av bv then (match cfg.direction with | .asc => -1 | .desc => 1)
  else if fvLt bv av then (match cfg.direction with | .asc => 1 | .desc => -1)
  else 0

/-- The collection the grid shows: `allTransactions` on the input tab,
`searchResults || []` on the search tab (`App.tsx` line 256). -/
def sourceData (st : AppState) : List Transaction :=
  match st.activeTab with
  | .input => st.allTransactions
  | .search => st.searchResults.getD []

/-- `sortedData` (`App.tsx` lines 255-267): the active collection, stably
sorted by the comparator. -/
def sortedData (st : AppState) : List Transaction :=
  (sourceData st).insertionSort fun a b => jsCompare st.sortConfig a b ≤ 0

/-- `itemsPerPage` (`App.tsx` line 64). -/
def itemsPerPage : Nat := 10

/-- One page slice: `sortedData.slice(startIndex, startIndex + itemsPerPage)`
with `startIndex = (page - 1) * itemsPerPage`. -/
def pageSlice (l : List Transaction) (page : Nat) : List Transaction :=
  (l.drop ((page - 1) * itemsPerPage)).take itemsPerPage

/-- `paginatedData` (`App.tsx` lines 269-272). -/
def paginatedData (st : AppState) : List Transaction :=
  pageSlice (sortedData st) st.currentPage

/-- `Math.ceil(length / itemsPerPage)` as exact natural arithmetic. -/
def numPages (l : List Transaction) : Nat :=
  (l.length + itemsPerPage - 1) / itemsPerPage

/-- `totalPages` (`App.tsx` line 274). -/
def totalPages (st : AppState) : Nat :=
  numPages (sortedData st)

/-- `requestSort` (`App.tsx` lines 276-282): direction starts as ascending
and flips to descending only when the clicked key is already active in
ascending order. -/
def requestSort (cfg : SortConfig) (key : TxKey) : SortConfig :=
  let direction : SortDirection :=
    if cfg.key == key && cfg.direction == SortDirection.asc then .desc else .asc
  { key := key, direction := direction }

/-- Two-digit rendering of a value below 100. -/
def pad2 (k : Nat) : String :=
  if k < 10 then "0" ++ toString k else toString k

/-- Floor of a rational, computed on its normalized fraction. -/
def ratFloor (q : Rat) : Int :=
  q.num.fdiv q.den

/-- Round to the nearest integer, ties upward. -/
def ratRound (q : Rat) : Int :=
  ratFloor (q + (1 : Rat) / 2)

/-- JavaScript `Number.prototype.toFixed(2)` on the observable values:
a finite value is rounded to two decimal digits; non-finite renders "NaN". -/
def toFixed2 : JsNum → String
  | none => "NaN"
  | some q =>
    let n : Int := ratRound (q * 100)
    let sgn := if n < 0 then "-" else ""
    let m := n.natAbs
    sgn ++ toString (m / 100) ++ "." ++ pad2 (m % 100)

/-- The per-row field list of `exportToCSV` (`App.tsx` lines 229-237). -/
def csvRowFields (t : Transaction) : List String :=
  [t.date, t.category, t.item, t.vendor, toFixed2 t.amount,
    t.from_account, t.paid_by]

/-- The header list of `exportToCSV` (`App.tsx` line 228). -/
def csvHeaders : List String :=
  ["Date", "Category", "Item", "Vendor", "Amount", "Account", "Paid By"]

/-- The `csvContent` string of `exportToCSV` (`App.tsx` lines 239-242). -/
def csvContent (rs : List Transaction) : String :=
  String.intercalate "\n"
    (String.intercalate "," csvHeaders ::
      rs.map fun t =>
        String.intercalate "," ((csvRowFields t).map fun v => "\"" ++ v ++ "\""))

/-- `exportToCSV` (`App.tsx` lines 225-253): produces the downloadable text,
or nothing when no search has run or the result collection is empty. -/
def exportToCSV (st : AppState) : Option String :=
  match st.searchResults with
  | none => none
  | some rs => if rs.length == 0 then none else some (csvContent rs)

/-- Wrap a field value in double quotes, as the spec (section 4.4) words it. -/
def quoteField (v : String) : String := "\"" ++ v ++ "\""

/-- Stated from the spec (section 4.4) for the refinement claim about the CSV
artifact: one row per transaction in order, each field double-quote-wrapped,
amount with two decimal places, fields joined by commas. -/
def specCsvRow (x : Transaction) : String :=
  String.intercalate ","
    ([x.date, x.category, x.item, x.vendor, toFixed2 x.amount,
      x.from_account, x.paid_by].map quoteField)

/-- Stated from the spec (section 4.4) for the refinement claim about the CSV
artifact: the literal header row, then the data rows, joined by newline. -/
def specCsvText (rs : List Transaction) : String :=
  String.intercalate "\n"
    ("Date,Category,Item,Vendor,Amount,Account,Paid By" :: rs.map specCsvRow)

/-- Characters before the first dot of a reversed character list. -/
def decTail : List Char → Option Nat
  | [] => none
  | c :: cs => if c == '.' then some 0 else (decTail cs).map (· + 1)

/-- Number of characters after the last dot of a string, if any. -/
def decimalsOf (s : String) : Option Nat :=
  decTail s.toList.reverse

/-- A state with empty collections and a cleared form, as after the first
render with an empty store. -/
def baseState : AppState :=
  { activeTab := .input, date := "2024-01-02", category := "", item := "",
    vendor := "", amount := "", fromAccount := "", paidBy := "",
    isSubmitting := false, fromDate := "", toDate := "", searchCategory := "",
    searchResults := none, currentPage := 1,
    sortConfig := { key := .created_at, direction := .desc },
    categories := [], accounts := [], payers := [], allTransactions := [],
    isLoading := true, error := none }

/-- A well-formed configuration. -/
def goodCfg : EnvConfig :=
  { url := some "https://example.supabase.co", anonKey := some "real-anon-key" }

/-- The fallback configuration of `src/supabase.ts` when the environment is
unset: both parameters are placeholder values. -/
def placeholderCfg : EnvConfig :=
  { url := some "https://placeholder.supabase.co", anonKey := some "placeholder-key" }

/-- Four successful empty selects. -/
def okLoad : LoadResults :=
  { categoriesRes := .ok [], accountsRes := .ok [], payersRes := .ok [],
    transactionsRes := .ok [] }

/-- A load whose transactions select failed. -/
def badLoad : LoadResults :=
  { categoriesRes := .ok [], accountsRes := .ok [], payersRes := .ok [],
    transactionsRes := .error "boom" }

/-- A sample persisted transaction. -/
def txA : Transaction :=
  { id := some 1, date := "2024-01-01", category := "Food", item := "Coffee",
    vendor := "Cafe", amount := none, from_account := "Cash", paid_by := "Ann" }

/-- A second sample transaction with a distinct id. -/
def txB : Transaction :=
  { txA with id := some 2 }

/-- A family of transactions with distinct server-assigned ids. -/
def txN (n : Nat) : Transaction :=
  { id := some n, date := "2024-01-05", category := "Food", item := "Item",
    vendor := "V", amount := none, from_account := "Cash", paid_by := "Ann" }

/-- A state holding two transactions in both collections. -/
def stDelW : AppState :=
  { baseState with
    allTransactions := [txA, txB],
    searchResults := some [txA, txB], isLoading := false }

/-- A state with 11 transactions whose grid is on page 2. -/
def pageTwoState : AppState :=
  { baseState with
    allTransactions := (List.range 11).map (fun n => txN (n + 1)),
    currentPage := 2, isLoading := false }

/-- A filled insert form whose amount does not parse as a number. -/
def badAmountState : AppState :=
  { baseState with
    amount := "abc", category := "Food", item := "Coffee",
    vendor := "Cafe", fromAccount := "Cash", paidBy := "Ann",
    isLoading := false }

/-- A filled search form. -/
def searchFormState : AppState :=
  { baseState with
    fromDate := "2024-01-01", toDate := "2024-01-31",
    isLoading := false }

/-- A state holding one search result row. -/
def stCsvW : AppState :=
  { baseState with
    searchResults := some [txA], isLoading := false }

/-!
Helper lemmas shared by several of the claim theorems below.
-/

/-- Membership in the delete filter: kept exactly when the id differs. -/
theorem mem_filter_id_ne {l : List Transaction} {i : Nat} {t : Transaction} :
    t ∈ l.filter (fun t => t.id != some i) ↔ t ∈ l ∧ t.id ≠ some i := by
  simp [List.mem_filter, bne_iff_ne]

/-- The insert guard fires exactly on an empty amount or an in-flight
submission. -/
theorem handleAdd_guard (cfg : EnvConfig) (today : String) (st : AppState)
    (ins : Except String Unit) (r : LoadResults)
    (h : st.amount = "" ∨ st.isSubmitting = true) :
    handleAddTransaction cfg today st ins r = (st, []) := by
  have hb : (st.amount == "" || st.isSubmitting) = true := by
    rcases h with h | h <;> simp [h]
  simp [handleAddTransaction, hb]

/-- Past the guard, the first remote call is always the transaction insert. -/
theorem handleAdd_head (cfg : EnvConfig) (today : String) (st : AppState)
    (ins : Except String Unit) (r : LoadResults)
    (h1 : st.amount ≠ "") (h2 : st.isSubmitting = false) :
    (handleAddTransaction cfg today st ins r).2.head? =
      some (RemoteCall.insertTransactionRow (newTransactionOf st)) := by
  have hb : (st.amount == "" || st.isSubmitting) = false := by
    simp [h1, h2]
  cases ins <;> simp [handleAddTransaction, hb]

/-- Past the guard, a successful insert ends with the page reset to 1. -/
theorem handleAdd_page (cfg : EnvConfig) (today : String) (st : AppState)
    (r : LoadResults) (h1 : st.amount ≠ "") (h2 : st.isSubmitting = false) :
    (handleAddTransaction cfg today st (Except.ok ()) r).1.currentPage = 1 := by
  have hb : (st.amount == "" || st.isSubmitting) = false := by
    simp [h1, h2]
  simp [handleAddTransaction, hb]

/-!
Claim theorems.
-/

/-- C10: invoking the delete operation with an undefined id is a complete
no-op: it issues no remote request and leaves the whole state unchanged. -/
theorem delete_undefined_noop (st : AppState) (confirmed : Bool)
    (res : Except String Unit) :
    handleDeleteTransaction st none confirmed res = (st, []) := rfl

/-- C8: clicking the key already active in ascending order flips the
direction to descending; clicking a different key, or the active key while
it is descending, resets to ascending on the clicked key. -/
theorem requestSort_toggles (cfg : SortConfig) (k : TxKey) :
    (cfg.key = k → cfg.direction = .asc →
      requestSort cfg k = ⟨k, .desc⟩) ∧
    (cfg.key ≠ k → requestSort cfg k = ⟨k, .asc⟩) ∧
    (cfg.direction = .desc → requestSort cfg k = ⟨k, .asc⟩) := by
  obtain ⟨ck, cd⟩ := cfg
  cases cd <;> by_cases hk : ck = k <;> simp_all [requestSort]

/-- Witness for C8 at concrete inputs. -/
theorem requestSort_toggles_witness :
    requestSort ⟨TxKey.date, SortDirection.asc⟩ TxKey.date =
      ⟨TxKey.date, SortDirection.desc⟩ ∧
    requestSort ⟨TxKey.date, SortDirection.asc⟩ TxKey.amount =
      ⟨TxKey.amount, SortDirection.asc⟩ ∧
    requestSort ⟨TxKey.date, SortDirection.desc⟩ TxKey.date =
      ⟨TxKey.date, SortDirection.asc⟩ :=
  ⟨(requestSort_toggles ⟨TxKey.date, .asc⟩ TxKey.date).1 rfl rfl,
    (requestSort_toggles ⟨TxKey.date, .asc⟩ TxKey.amount).2.1 (by decide),
    (requestSort_toggles ⟨TxKey.date, .desc⟩ TxKey.date).2.2 rfl⟩

/-- C2: a remotely successful delete removes exactly the records carrying
the deleted id from the in-memory transaction collection and from a held
search-result collection, preserving the order and every other record, and
issues only the single delete request (no reload); a failed delete leaves
the whole state unchanged. -/
theorem delete_removes_exactly_id (st : AppState) (i : Nat) :
    ((handleDeleteTransaction st (some i) true
        (Except.ok ())).1.allTransactions.Sublist st.allTransactions) ∧
    (∀ t, t ∈ (handleDeleteTransaction st (some i) true
        (Except.ok ())).1.allTransactions ↔
      t ∈ st.allTransactions ∧ t.id ≠ some i) ∧
    (st.searchResults = none →
      (handleDeleteTransaction st (some i) true
        (Except.ok ())).1.searchResults = none) ∧
    (∀ l, st.searchResults = some l →
      ∃ l2, (handleDeleteTransaction st (some i) true
          (Except.ok ())).1.searchResults = some l2 ∧
        l2.Sublist l ∧ (∀ t, t ∈ l2 ↔ t ∈ l ∧ t.id ≠ some i)) ∧
    ((handleDeleteTransaction st (some i) true (Except.ok ())).2 =
      [RemoteCall.deleteById "transactions" i]) ∧
    (∀ e, handleDeleteTransaction st (some i) true (Except.error e) =
      (st, [RemoteCall.deleteById "transactions" i])) := by
  refine ⟨?_, ?_, ?_, ?_, ?_, ?_⟩
  · exact List.filter_sublist st.allTransactions
  · intro t
    exact mem_filter_id_ne
  · intro h
    simp [handleDeleteTransaction, h]
  · intro l h
    refine ⟨l.filter (fun t => t.id != some i), ?_,
      List.filter_sublist l, fun t => mem_filter_id_ne⟩
    simp [handleDeleteTransaction, h]
  · simp [handleDeleteTransaction]
  · intro e
    simp [handleDeleteTransaction]

/-- Witness for C2: deleting id 1 from a two-element state keeps the record
with id 2 and drops the record with id 1. -/
theorem delete_removes_exactly_id_witness :
    txB ∈ (handleDeleteTransaction stDelW (some 1) true
        (Except.ok ())).1.allTransactions ∧
    txA ∉ (handleDeleteTransaction stDelW (some 1) true
        (Except.ok ())).1.allTransactions :=
  ⟨((delete_removes_exactly_id stDelW 1).2.1 txB).mpr ⟨by decide, by decide⟩,
    fun h => (((delete_removes_exactly_id stDelW 1).2.1 txA).mp h).2 rfl⟩

/-- C4: when any of the four fetches of a load reports an error, none of the
four in-memory collections is modified and an error is surfaced instead. -/
theorem load_failure_preserves_state (cfg : EnvConfig) (r : LoadResults)
    (st : AppState) (h : loadErrors r ≠ []) :
    (fetchData cfg r st).1.categories = st.categories ∧
    (fetchData cfg r st).1.accounts = st.accounts ∧
    (fetchData cfg r st).1.payers = st.payers ∧
    (fetchData cfg r st).1.allTransactions = st.allTransactions ∧
    (fetchData cfg r st).1.error ≠ none := by
  have he : (loadErrors r).isEmpty = false := by
    cases hl : loadErrors r with
    | nil => exact absurd hl h
    | cons a l => rfl
  unfold fetchData
  by_cases hc : configMissing cfg <;> simp [hc, he]

/-- Witness for C4: a load whose transactions select failed. -/
theorem load_failure_preserves_state_witness :
    (fetchData goodCfg badLoad baseState).1.categories = baseState.categories ∧
    (fetchData goodCfg badLoad baseState).1.accounts = baseState.accounts ∧
    (fetchData goodCfg badLoad baseState).1.payers = baseState.payers ∧
    (fetchData goodCfg badLoad baseState).1.allTransactions =
      baseState.allTransactions ∧
    (fetchData goodCfg badLoad baseState).1.error ≠ none :=
  load_failure_preserves_state goodCfg badLoad baseState (by decide)

/-- C1 counterexample: the amount "abc" is not a parsable finite number, yet
the insert operation still issues the remote insert as its first call,
carrying the non-finite parse result, instead of failing locally with no
remote call. -/
theorem insert_validation_cex :
    jsParseFloat badAmountState.amount = none ∧
    (handleAddTransaction goodCfg "2024-01-02" badAmountState (Except.ok ())
        okLoad).2.head? =
      some (RemoteCall.insertTransactionRow (newTransactionOf badAmountState)) ∧
    (newTransactionOf badAmountState).amount = none := by
  refine ⟨by decide, ?_, by decide⟩
  decide

/-- C1 amended: the only local validation of the insert operation is that
the amount string is non-empty (and that no submission is in flight); an
empty amount short-circuits with no remote call and no state change, while
any non-empty amount — parsable or not — reaches the remote insert, whose
row carries the parse result of the amount. -/
theorem insert_guard_only_nonempty (cfg : EnvConfig) (today : String)
    (st : AppState) (ins : Except String Unit) (r : LoadResults) :
    ((st.amount = "" ∨ st.isSubmitting = true) →
      handleAddTransaction cfg today st ins r = (st, [])) ∧
    (st.amount ≠ "" → st.isSubmitting = false →
      (handleAddTransaction cfg today st ins r).2.head? =
        some (RemoteCall.insertTransactionRow (newTransactionOf st))) :=
  ⟨handleAdd_guard cfg today st ins r,
    fun h1 h2 => handleAdd_head cfg today st ins r h1 h2⟩

/-- Witness for C1 amended: the empty-amount guard and the issued insert at
concrete states. -/
theorem insert_guard_only_nonempty_witness :
    handleAddTransaction goodCfg "2024-01-02" baseState (Except.ok ())
        okLoad = (baseState, []) ∧
    (handleAddTransaction goodCfg "2024-01-02" badAmountState (Except.ok ())
        okLoad).2.head? =
      some (RemoteCall.insertTransactionRow (newTransactionOf badAmountState)) :=
  ⟨(insert_guard_only_nonempty goodCfg "2024-01-02" baseState (Except.ok ())
      okLoad).1 (Or.inl rfl),
    (insert_guard_only_nonempty goodCfg "2024-01-02" badAmountState
      (Except.ok ()) okLoad).2 (by decide) rfl⟩

/-- C3 counterexample: deleting one of 11 records while the grid is on
page 2 shrinks the page count to 1, but the page number stays 2, outside
the interval from 1 to the page count. -/
theorem delete_page_clamp_cex :
    (handleDeleteTransaction pageTwoState (some 1) true
        (Except.ok ())).1.currentPage = 2 ∧
    totalPages (handleDeleteTransaction pageTwoState (some 1) true
        (Except.ok ())).1 = 1 ∧
    ¬ ((handleDeleteTransaction pageTwoState (some 1) true
        (Except.ok ())).1.currentPage ≤
      totalPages (handleDeleteTransaction pageTwoState (some 1) true
        (Except.ok ())).1) := by
  refine ⟨rfl, by decide, by decide⟩

/-- C3 amended: the caller resets the page to 1 after a successful search
and after a successful insert, but a delete leaves the page number exactly
as it was — nothing clamps it into the interval from 1 to the page count
when the page count shrinks. -/
theorem page_reset_behavior :
    (∀ st data, (handleSearch st (Except.ok data)).1.currentPage = 1) ∧
    (∀ cfg today st r, st.amount ≠ "" → st.isSubmitting = false →
      (handleAddTransaction cfg today st (Except.ok ()) r).1.currentPage = 1) ∧
    (∀ st k c res,
      (handleDeleteTransaction st k c res).1.currentPage = st.currentPage) := by
  refine ⟨fun st data => rfl, ?_, ?_⟩
  · intro cfg today st r h1 h2
    exact handleAdd_page cfg today st r h1 h2
  · intro st k c res
    cases k with
    | none => rfl
    | some i =>
      cases c with
      | false => rfl
      | true => cases res <;> rfl

/-- Witness for C3 amended at concrete states. -/
theorem page_reset_behavior_witness :
    (handleSearch searchFormState (Except.ok [])).1.currentPage = 1 ∧
    (handleAddTransaction goodCfg "2024-01-02" badAmountState (Except.ok ())
        okLoad).1.currentPage = 1 ∧
    (handleDeleteTransaction pageTwoState (some 1) true
        (Except.ok ())).1.currentPage = pageTwoState.currentPage :=
  ⟨page_reset_behavior.1 searchFormState [],
    page_reset_behavior.2.1 goodCfg "2024-01-02" badAmountState okLoad
      (by decide) rfl,
    page_reset_behavior.2.2 pageTwoState (some 1) true (Except.ok ())⟩

/-- C5 counterexample: with the placeholder configuration in force, the
search operation still issues its select (and the insert operation its
insert) instead of short-circuiting into a configuration-error state. -/
theorem search_ignores_config_cex :
    configMissing placeholderCfg = true ∧
    (handleSearch searchFormState (Except.ok [])).2 =
      [RemoteCall.searchSelect
        (buildSearchQuery "2024-01-01" "2024-01-31" "")] ∧
    (handleSearch searchFormState (Except.ok [])).1.error ≠
      some configErrorMsg ∧
    (handleAddTransaction placeholderCfg "2024-01-02" badAmountState
        (Except.ok ()) okLoad).2.head? =
      some (RemoteCall.insertTransactionRow (newTransactionOf badAmountState)) := by
  refine ⟨by decide, rfl, by decide, ?_⟩
  decide

/-- C5 amended: only the load operation detects a missing or placeholder
configuration before any network call and short-circuits into the
configuration-error state; search, delete and insert do not consult the
configuration and issue their remote requests regardless. -/
theorem only_load_checks_config (cfg : EnvConfig) (r : LoadResults)
    (st : AppState) (h : configMissing cfg = true) :
    fetchData cfg r st =
      ({ st with error := some configErrorMsg, isLoading := false }, []) ∧
    (∀ res, (handleSearch st res).2 =
      [RemoteCall.searchSelect
        (buildSearchQuery st.fromDate st.toDate st.searchCategory)]) ∧
    (∀ i res, (handleDeleteTransaction st (some i) true res).2 =
      [RemoteCall.deleteById "transactions" i]) ∧
    (∀ today ins lr, st.amount ≠ "" → st.isSubmitting = false →
      (handleAddTransaction cfg today st ins lr).2.head? =
        some (RemoteCall.insertTransactionRow (newTransactionOf st))) := by
  refine ⟨by simp [fetchData, h], ?_, ?_, ?_⟩
  · intro res
    cases res <;> rfl
  · intro i res
    cases res <;> rfl
  · intro today ins lr h1 h2
    exact handleAdd_head cfg today st ins lr h1 h2

/-- Witness for C5 amended: the load short-circuit at the placeholder
configuration. -/
theorem only_load_checks_config_witness :
    fetchData placeholderCfg okLoad baseState =
      ({ baseState with
          error := some configErrorMsg, isLoading := false }, []) :=
  (only_load_checks_config placeholderCfg okLoad baseState (by decide)).1

/-- C6: the built fetch filters exactly by the set parts of the search spec
(inclusive bounds on the date, equality on the category), its result is
ordered by date descending, an empty spec returns the full collection, and
a successful search populates the separate search-result state, leaving the
primary transaction collection untouched. -/
theorem search_query_semantics (fromD toD cat : String)
    (store : List Transaction) (st : AppState) (data : List Transaction) :
    (∀ x, x ∈ runSearchQuery store (buildSearchQuery fromD toD cat) ↔
        x ∈ store ∧ (fromD = "" ∨ fromD ≤ x.date) ∧
          (toD = "" ∨ x.date ≤ toD) ∧ (cat = "" ∨ x.category = cat)) ∧
    (runSearchQuery store (buildSearchQuery fromD toD cat)).Pairwise
      (fun a b => b.date ≤ a.date) ∧
    (fromD = "" → toD = "" → cat = "" →
      (runSearchQuery store (buildSearchQuery fromD toD cat)).Perm store) ∧
    ((handleSearch st (Except.ok data)).1.searchResults = some data ∧
      (handleSearch st (Except.ok data)).1.allTransactions =
        st.allTransactions ∧
      (handleSearch st (Except.ok data)).2 =
        [RemoteCall.searchSelect
          (buildSearchQuery st.fromDate st.toDate st.searchCategory)]) := by
  refine ⟨?_, ?_, ?_, rfl, rfl, rfl⟩
  · intro x
    by_cases h1 : fromD = "" <;> by_cases h2 : toD = "" <;>
      by_cases h3 : cat = "" <;>
      simp [runSearchQuery, buildSearchQuery, List.mem_insertionSort,
        List.mem_filter, h1, h2, h3, and_assoc]
  · letI : IsTotal Transaction (fun a b => b.date ≤ a.date) :=
      ⟨fun a b => le_total b.date a.date⟩
    letI : IsTrans Transaction (fun a b => b.date ≤ a.date) :=
      ⟨fun a b c hab hbc => le_trans hbc hab⟩
    simpa [runSearchQuery, List.Sorted] using
      List.sorted_insertionSort (fun a b : Transaction => b.date ≤ a.date) _
  · intro h1 h2 h3
    simpa [runSearchQuery, buildSearchQuery, h1, h2, h3, List.filter_true]
      using List.perm_insertionSort
        (fun a b : Transaction => b.date ≤ a.date) store

/-- Witness for C6: the empty spec returns the full two-element store. -/
theorem search_query_semantics_witness :
    (runSearchQuery [txA, txB] (buildSearchQuery "" "" "")).Perm [txA, txB] :=
  (search_query_semantics "" "" "" [txA, txB] baseState []).2.2.1 rfl rfl rfl

/-- Concatenating the page slices for pages 1 up to n reproduces any list
of length at most n times the page size. -/
theorem pageSlice_join (n : Nat) :
    ∀ l : List Transaction, l.length ≤ n * itemsPerPage →
      ((List.range n).map (fun i => pageSlice l (i + 1))).flatten = l := by
  induction n with
  | zero =>
    intro l hl
    have : l = [] := List.eq_nil_of_length_eq_zero (Nat.le_zero.mp hl)
    simp [this]
  | succ n ih =>
    intro l hl
    have hlen : (l.drop itemsPerPage).length ≤ n * itemsPerPage := by
      simp only [List.length_drop, itemsPerPage] at *
      omega
    rw [List.range_succ_eq_map, List.map_cons, List.map_map]
    have hmap : (List.range n).map ((fun i => pageSlice l (i + 1)) ∘ Nat.succ) =
        (List.range n).map (fun i => pageSlice (l.drop itemsPerPage) (i + 1)) := by
      refine List.map_congr_left (fun i _ => ?_)
      simp only [Function.comp, pageSlice, List.drop_drop]
      congr 2
      simp [itemsPerPage]
      omega
    rw [hmap, List.flatten_cons, ih _ hlen]
    simp [pageSlice]

/-- The page count computed by the pipeline is the rational ceiling of the
collection size over the page size. -/
theorem numPages_eq_ceil (l : List Transaction) :
    (numPages l : ℤ) = ⌈((l.length : ℚ)) / (itemsPerPage : ℚ)⌉ := by
  have h10 : (0:ℚ) < (itemsPerPage : ℚ) := by norm_num [itemsPerPage]
  have h1 : (l.length : ℤ) ≤ (numPages l : ℤ) * (itemsPerPage : ℤ) := by
    simp only [numPages, itemsPerPage]
    omega
  have h2 : ((numPages l : ℤ) - 1) * (itemsPerPage : ℤ) < (l.length : ℤ) := by
    simp only [numPages, itemsPerPage]
    omega
  symm
  rw [Int.ceil_eq_iff]
  constructor
  · rw [lt_div_iff₀ h10]
    push_cast
    exact_mod_cast h2
  · rw [div_le_iff₀ h10]
    exact_mod_cast h1

/-- C7: the paginate pipeline produces the ceiling of size over 10 pages,
and concatenating the page slices for pages 1 through that count in order
reproduces the sorted collection exactly, each element exactly once. -/
theorem pagination_partitions (st : AppState) :
    ((List.range (totalPages st)).map
        (fun i => paginatedData { st with currentPage := i + 1 })).flatten =
      sortedData st ∧
    (totalPages st : ℤ) =
      ⌈(((sortedData st).length : ℚ)) / (itemsPerPage : ℚ)⌉ := by
  constructor
  · have hmap : (List.range (totalPages st)).map
        (fun i => paginatedData { st with currentPage := i + 1 }) =
        (List.range (totalPages st)).map
          (fun i => pageSlice (sortedData st) (i + 1)) :=
      List.map_congr_left (fun i _ => rfl)
    rw [hmap]
    apply pageSlice_join
    simp only [totalPages, numPages, itemsPerPage]
    omega
  · exact numPages_eq_ceil _

/-- The CSV text built by the code coincides with the artifact the spec
describes. -/
theorem csvContent_eq_spec (rs : List Transaction) :
    csvContent rs = specCsvText rs := rfl

/-- The two-digit tail is two characters long and free of dots. -/
theorem pad2_two_digits : ∀ k < 100,
    (pad2 k).length = 2 ∧ ∀ c ∈ (pad2 k).toList, ¬ c = '.' := by decide

/-- Scanning a reversed string: the characters before the first dot are
counted when none of them is a dot. -/
theorem decTail_append (r : List Char) :
    ∀ p : List Char, (∀ c ∈ p, ¬ c = '.') →
      decTail (p ++ '.' :: r) = some p.length := by
  intro p
  induction p with
  | nil => intro _; simp [decTail]
  | cons c cs ih =>
    intro hp
    have hc : (c == '.') = false := by
      simp only [beq_eq_false_iff_ne, ne_eq]
      exact hp c (List.mem_cons_self c cs)
    simp [decTail, hc, ih (fun d hd => hp d (List.mem_cons_of_mem c hd))]

/-- Unfolding of the finite case of the amount formatter. -/
theorem toFixed2_some (q : Rat) : toFixed2 (some q) =
    (if ratRound (q * 100) < 0 then "-" else "") ++
      toString ((ratRound (q * 100)).natAbs / 100) ++ "." ++
      pad2 ((ratRound (q * 100)).natAbs % 100) := rfl

/-- A string of the shape prefix-dot-tail has exactly the tail after its
last dot, when the tail is dot-free. -/
theorem decimalsOf_append (pre p : String) (hp : ∀ c ∈ p.toList, ¬ c = '.') :
    decimalsOf (pre ++ "." ++ p) = some p.length := by
  unfold decimalsOf
  have hdata : (pre ++ "." ++ p).toList = pre.toList ++ '.' :: p.toList := by
    simp [String.toList, String.data_append]
  rw [hdata, List.reverse_append, List.reverse_cons, List.append_assoc,
    List.singleton_append,
    decTail_append _ _ (fun c hc => hp c (List.mem_reverse.mp hc)),
    List.length_reverse]
  rfl

/-- Every finite amount renders with exactly two characters after the
decimal point. -/
theorem decimalsOf_toFixed2 (q : Rat) :
    decimalsOf (toFixed2 (some q)) = some 2 := by
  have hm : (ratRound (q * 100)).natAbs % 100 < 100 :=
    Nat.mod_lt _ (by norm_num)
  obtain ⟨hlen, hdot⟩ := pad2_two_digits _ hm
  rw [toFixed2_some, decimalsOf_append _ _ hdot, hlen]

/-- C9: on a non-empty search-result collection the exporter produces
exactly the header row followed by one double-quote-wrapped, comma-joined
row per transaction in collection order, rows joined by newline, with every
finite amount carrying exactly two decimal places; on an absent or empty
collection it produces nothing. -/
theorem export_csv_format (st : AppState) (rs : List Transaction) :
    (st.searchResults = some rs → rs ≠ [] →
      exportToCSV st = some (specCsvText rs)) ∧
    (st.searchResults = none → exportToCSV st = none) ∧
    (st.searchResults = some [] → exportToCSV st = none) ∧
    (∀ q : Rat, decimalsOf (toFixed2 (some q)) = some 2) := by
  refine ⟨?_, ?_, ?_, decimalsOf_toFixed2⟩
  · intro h hne
    have hlen : (rs.length == 0) = false := by
      cases rs with
      | nil => exact absurd rfl hne
      | cons a l => rfl
    simp [exportToCSV, h, hlen, csvContent_eq_spec]
  · intro h
    simp [exportToCSV, h]
  · intro h
    simp [exportToCSV, h]

/-- Witness for C9: export of a one-row result and a two-decimal amount. -/
theorem export_csv_format_witness :
    exportToCSV stCsvW = some (specCsvText [txA]) ∧
    decimalsOf (toFixed2 (some (0 : Rat))) = some 2 :=
  ⟨(export_csv_format stCsvW [txA]).1 rfl (by decide),
    (export_csv_format stCsvW [txA]).2.2.2 0⟩

end ConsumptionApp
